import Mathlib

/-!
Verification of the Incus OS console TUI (incus-osd/internal/tui/tui.go).

Shallow embedding notes:
- Go strings are modelled as Lean `String`.  Go `len` is byte length, which
  coincides with `String.length` for the ASCII data handled here.
- Fallible collaborators (the OS-release query, the state store, network
  interface enumeration, the output sinks) are modelled as explicit
  `Except`/`Option` parameters: the Go code consumes them as black boxes.
- Side effects on the tview frame are modelled as pure state transformers
  returning the new frame contents.
-/

/-- Splitting a character list at every space, keeping empty fields; the
empty list yields one empty field. -/
def splitChars : List Char → List (List Char)
  | [] => [[]]
  | c :: cs =>
    if c = ' ' then [] :: splitChars cs
    else
      match splitChars cs with
      | [] => [[c]]
      | w :: ws => (c :: w) :: ws

/-- Go `strings.Split(text, " ")`: split on every single space character,
keeping empty fields; the empty string yields one empty field. -/
def splitOnSpace (s : String) : List String :=
  (splitChars s.data).map String.mk

/-- Predicate `matchesAt pat l`: the character list `pat` is an initial segment of `l`. -/
def matchesAt : List Char → List Char → Bool
  | [], _ => true
  | _ :: _, [] => false
  | p :: ps, c :: cs => p = c && matchesAt ps cs

/-- Predicate `searchFrom pat l`: `pat` occurs contiguously somewhere in `l`
(at any position, including the very end for an empty `pat`). -/
def searchFrom (pat : List Char) : List Char → Bool
  | [] => matchesAt pat []
  | c :: cs => matchesAt pat (c :: cs) || searchFrom pat cs

/-- Go `strings.Contains(s, pat)`. -/
def strContains (s pat : String) : Bool := searchFrom pat.data s.data

/-- Go `strings.HasPrefix(s, pat)`. -/
def strHasStart (s pat : String) : Bool := matchesAt pat.data s.data

/-- The severity colorization performed by `(*tui).Write` before forwarding a
log chunk to the text view: a chunk containing `level=WARN` is wrapped in
orange, otherwise a chunk containing `level=ERROR` is wrapped in red. -/
def colorize (s : String) : String :=
  if strContains s "level=WARN" then "[orange]" ++ s ++ "[white]"
  else if strContains s "level=ERROR" then "[red]" ++ s ++ "[white]"
  else s

/-- The two output sinks reachable from `(*tui).Write`: the tview text view
(`body`) and the mirrored `os.Stdout` stream (`mirror`), each as the list of
chunks accepted so far. -/
structure TuiSinks where
  body : List String
  mirror : List String
deriving DecidableEq, Repr

/-- The value of a Go `(int, error)` return from `Write`, together with the
sink state after the call. -/
structure WriteResult where
  sinks : TuiSinks
  count : Nat
  err : Option String
deriving DecidableEq, Repr

/-- Model of `(*tui).Write(p)`: colorize severity markers, `fmt.Fprint` the colorized
chunk to the text view, and on success `fmt.Fprint` the original chunk to
stdout, returning stdout's count and error.  `bodyErr`/`mirrorErr` are the
error outcomes of the two sinks (`none` = success; Go's count returned by a
failed `Fprint` is unspecified, modelled as 0). -/
def tuiWrite (st : TuiSinks) (bodyErr mirrorErr : Option String) (p : String) :
    WriteResult :=
  let s := colorize p
  match bodyErr with
  | some e => ⟨st, 0, some e⟩
  | none =>
    let st1 : TuiSinks := ⟨st.body ++ [s], st.mirror⟩
    match mirrorErr with
    | some e => ⟨st1, 0, some e⟩
    | none => ⟨⟨st1.body, st1.mirror ++ [p]⟩, p.length, none⟩

/-- The color-markup label placed at the start of the first wrapped footer
line: `"[green]" + label + ":[white] "` in the Go source. -/
def labelMarkup (label : String) : String := "[green]" ++ label ++ ":[white] "

/-- The word loop of `wrapFooterText`: walk the whitespace-split words,
flushing `currentLine` whenever the tracked display length `currentLen` plus
the next word would exceed `maxLineLength`, then appending the word and a
space.  A trailing non-empty line is flushed at the end. -/
def wrapLoop (maxLineLength : Nat) :
    List String → String → Nat → List String → List String
  | [], currentLine, _, ret =>
      if currentLine.length > 0 then ret ++ [currentLine] else ret
  | word :: words, currentLine, currentLen, ret =>
      if currentLen + word.length > maxLineLength then
        wrapLoop maxLineLength words (word ++ " ") (word.length + 1)
          (ret ++ [currentLine])
      else
        wrapLoop maxLineLength words (currentLine ++ word ++ " ")
          (currentLen + word.length + 1) ret

/-- Go `wrapFooterText(label, text, maxLineLength)`: basic space-only wrapping,
starting from the markup-decorated label (whose tracked display length is
`label.length + 2`, i.e. `"label: "`), returning the lines reversed. -/
def wrapFooterText (label text : String) (maxLineLength : Nat) : List String :=
  (wrapLoop maxLineLength (splitOnSpace text) (labelMarkup label)
    (label.length + 2) []).reverse

/-- The skip condition of `getIPAddresses`: empty, IPv4 loopback, IPv6
loopback, or an address starting with the link-local `fe80:` prefix. -/
def skipAddr (addr : String) : Bool :=
  addr == "" || addr == "127.0.0.1/8" || addr == "::1/128" ||
    strHasStart addr "fe80:"

/-- The accumulation loop of `getIPAddresses` over the enumerated
addresses. -/
def filterAddrs : List String → List String
  | [] => []
  | a :: rest => if skipAddr a then filterAddrs rest else a :: filterAddrs rest

/-- Go `getIPAddresses()`: on an interface-enumeration error, return a
single-element list holding the error text; otherwise the filtered address
strings in enumeration order. -/
def getIPAddresses (addrsRes : Except String (List String)) : List String :=
  match addrsRes with
  | .error e => [e]
  | .ok addrs => filterAddrs addrs

/-- Insertion step for the model of Go `slices.Sort` on strings. -/
def insertSorted (x : String) : List String → List String
  | [] => [x]
  | y :: ys => if x ≤ y then x :: y :: ys else y :: insertSorted x ys

/-- Go `slices.Sort` on a `[]string`: lexicographic sort (insertion-sort
model; for strings the sorted result is unique, so the algorithm choice is
irrelevant). -/
def sortStrings : List String → List String
  | [] => []
  | x :: xs => insertSorted x (sortStrings xs)

/-- A wall-clock instant, already converted to UTC, as consumed by
`time.Now().UTC().Format(...)`. -/
structure Timestamp where
  year : Nat
  month : Nat
  day : Nat
  hour : Nat
  minute : Nat
deriving DecidableEq, Repr

/-- Zero-pad a decimal rendering to `width` digits, as Go's time formatter
does for the layout fields used here. -/
def padNum (width n : Nat) : String :=
  let s := toString n
  if s.length < width then String.mk (List.replicate (width - s.length) '0') ++ s
  else s

/-- Go `Format("2006-01-02 15:04 UTC")` on a UTC timestamp. -/
def formatTimestamp (t : Timestamp) : String :=
  padNum 4 t.year ++ "-" ++ padNum 2 t.month ++ "-" ++ padNum 2 t.day ++ " " ++
    padNum 2 t.hour ++ ":" ++ padNum 2 t.minute ++ " UTC"

/-- The `tview.Align*` constant passed to `Frame.AddText`. -/
inductive Align
  | left
  | center
  | right
deriving DecidableEq, Repr

/-- One `Frame.AddText` entry: its text, whether it goes in the header
(`true`) or footer (`false`), and its alignment.  (The color is always
`tcell.ColorWhite` in the source and is omitted.) -/
structure FrameText where
  text : String
  header : Bool
  align : Align
deriving DecidableEq, Repr

/-- The tview frame state touched by `redrawScreen`: the added header/footer
texts and whether the log text view is attached as the frame's primitive. -/
structure Frame where
  texts : List FrameText
  hasBody : Bool
deriving DecidableEq, Repr

/-- The version string shown in the header: the OS-release answer, or on
failure the error text in square brackets. -/
def versionString : Except String String → String
  | .ok v => v
  | .error e => "[" ++ e ++ "]"

/-- The per-application display strings built from the loaded state: on a
load error the list stays empty; entries are `name(version)`. -/
def appEntries : Except String (List (String × String)) → List String
  | .ok apps => apps.map fun p => p.1 ++ "(" ++ p.2 ++ ")"
  | .error _ => []

/-- The full sequence of `AddText` calls one `redrawScreen` performs after
`frame.Clear()`: centered product+version header, right-aligned UTC
timestamp, then left-aligned footer lines for IP addresses and installed
applications, each wrapped against the console width. -/
def frameTexts (versionRes : Except String String)
    (stateRes : Except String (List (String × String)))
    (addrsRes : Except String (List String))
    (now : Timestamp) (consoleWidth : Nat) : List FrameText :=
  [⟨"Incus OS " ++ versionString versionRes, true, Align.center⟩,
   ⟨formatTimestamp now, true, Align.right⟩] ++
  (wrapFooterText "IP Address(es)"
      (String.intercalate ", " (getIPAddresses addrsRes)) consoleWidth).map
    (fun l => ⟨l, false, Align.left⟩) ++
  (wrapFooterText "Installed application(s)"
      (String.intercalate ", " (sortStrings (appEntries stateRes)))
      consoleWidth).map
    (fun l => ⟨l, false, Align.left⟩)

/-- Model of `(*tui).redrawScreen()`: a no-op when the frame was never constructed
(`t.frame == nil`); otherwise clear the frame and rebuild all header/footer
texts from the current data sources, re-attaching the text view as the
frame's primitive when it exists.  The function has no error return. -/
def redrawScreen (frame? : Option Frame) (textViewExists : Bool)
    (versionRes : Except String String)
    (stateRes : Except String (List (String × String)))
    (addrsRes : Except String (List String))
    (now : Timestamp) (consoleWidth : Nat) : Option Frame :=
  match frame? with
  | none => none
  | some f =>
      some ⟨frameTexts versionRes stateRes addrsRes now consoleWidth,
            if textViewExists then true else f.hasBody⟩

/-- One observable action of an iteration of the redraw goroutine in
`(*tui).Run`: either the best-effort raw write of `bytes` to the console
device at `path` (with `ok` recording whether `os.WriteFile` succeeded), or
a `redrawScreen` invocation. -/
inductive TickEvent
  | clearWrite (path : String) (bytes : List Nat) (ok : Bool)
  | redraw
deriving DecidableEq, Repr

/-- The ordered actions of iteration `i` of the redraw loop in `Run`: on
every 12th tick (those with `i % 12 == 1`) the 2-byte `ESC c` sequence is
written to `/dev/console` first, its result discarded, and the redraw runs
unconditionally afterwards. -/
def tickEvents (i : Nat) (clearOk : Bool) : List TickEvent :=
  if i % 12 = 1 then
    [TickEvent.clearWrite "/dev/console" [0x1B, 0x63] clearOk, TickEvent.redraw]
  else
    [TickEvent.redraw]

/-- Whether a tick attempted the console clear. -/
def tickHasClear (evs : List TickEvent) : Bool :=
  evs.any fun e =>
    match e with
    | TickEvent.clearWrite _ _ _ => true
    | TickEvent.redraw => false

/-- The fields of the `tui` struct that `newTUI` fills in, each flag
recording whether the corresponding pointer field was assigned a non-nil
value.  The zero value `&tui{}` has every flag false. -/
structure TuiObj where
  screenSet : Bool
  textViewSet : Bool
  frameSet : Bool
  pagesSet : Bool
  appSet : Bool
deriving DecidableEq, Repr

/-- The freshly allocated `&tui{}` with no field assigned. -/
def emptyTuiObj : TuiObj := ⟨false, false, false, false, false⟩

/-- How far `newTUI`'s fallible construction steps get: the tty multiplexer
open may fail, then the terminfo screen bind may fail, otherwise everything
succeeds. -/
inductive BuildOutcome
  | muxFail (e : String)
  | screenFail (e : String)
  | ok
deriving DecidableEq, Repr

/-- Go `newTUI()`: allocates `ret := &tui{}` first, so even the failing returns
hand back that (partially constructed) non-nil instance alongside the
error. -/
def newTUI : BuildOutcome → TuiObj × Option String
  | .muxFail e => (emptyTuiObj, some e)
  | .screenFail e => (emptyTuiObj, some e)
  | .ok => (⟨true, true, true, true, true⟩, none)

/-- The observable result of one `GetTUI()` call: the singleton variable
after the call, the returned instance (`none` models a nil pointer), and the
returned error. -/
structure GetTUIResult where
  stored : Option TuiObj
  returned : Option TuiObj
  err : Option String
deriving DecidableEq, Repr

/-- Go `GetTUI()` against the current singleton variable `tuiInstance`
(`none` = nil).  When nil, `tuiInstance, err = newTUI()` assigns the
returned instance to the singleton before the error check, so a failed
construction still populates the singleton while the call returns
`(nil, err)`. -/
def GetTUI (tuiInstance : Option TuiObj) (outcome : BuildOutcome) :
    GetTUIResult :=
  match tuiInstance with
  | some t => ⟨some t, some t, none⟩
  | none =>
      let r := newTUI outcome
      match r.2 with
      | some e => ⟨some r.1, none, some e⟩
      | none => ⟨some r.1, some r.1, none⟩

/-- The guarantee actually met by each wrapped footer line: the line fits in
`maxLen + 1` characters (every word carries a trailing space), or it is a
single over-long word followed by its trailing space, or it is the
markup-decorated label line whose display content (`label: ` plus the rest)
fits in `maxLen + 1` characters — or the bare decorated label when not even
the first word fit after it. -/
def GoodLine (label : String) (ws : List String) (maxLen : Nat)
    (line : String) : Prop :=
  line.length ≤ maxLen + 1
  ∨ (∃ w, w ∈ ws ∧ line = w ++ " " ∧ maxLen < w.length)
  ∨ (∃ r, line = labelMarkup label ++ r ∧
      (r = "" ∨ label.length + 2 + r.length ≤ maxLen + 1))

/-- Invariant carried by the wrapping loop's current line: it is the label
line with its tracked length counting `label: ` as `label.length + 2`, or an
ordinary line whose tracked length is its true length; over-long lines are
single over-long words from the input. -/
def CurInv (label : String) (ws : List String) (maxLen : Nat)
    (line : String) (len : Nat) : Prop :=
  (∃ r, line = labelMarkup label ++ r ∧ len = label.length + 2 + r.length ∧
    (r = "" ∨ len ≤ maxLen + 1))
  ∨ (line.length = len ∧
      (len ≤ maxLen + 1 ∨ ∃ w, w ∈ ws ∧ line = w ++ " " ∧ maxLen < w.length))

theorem curInv_good (label : String) (ws : List String) (maxLen : Nat)
    (line : String) (len : Nat) (h : CurInv label ws maxLen line len) :
    GoodLine label ws maxLen line := by
  rcases h with ⟨r, hline, hlen, hcond⟩ | ⟨hl, hor⟩
  · refine Or.inr (Or.inr ⟨r, hline, ?_⟩)
    rcases hcond with h | h
    · exact Or.inl h
    · exact Or.inr (by omega)
  · rcases hor with h | h
    · exact Or.inl (by omega)
    · exact Or.inr (Or.inl h)

theorem wrapLoop_good (label : String) (ws : List String) (maxLen : Nat) :
    ∀ (rest : List String) (line : String) (len : Nat) (acc : List String),
      (∀ w, w ∈ rest → w ∈ ws) →
      CurInv label ws maxLen line len →
      (∀ l, l ∈ acc → GoodLine label ws maxLen l) →
      ∀ l, l ∈ wrapLoop maxLen rest line len acc →
        GoodLine label ws maxLen l := by
  intro rest
  induction rest with
  | nil =>
    intro line len acc _ hinv hacc l hl
    unfold wrapLoop at hl
    split at hl
    · rcases List.mem_append.mp hl with h | h
      · exact hacc l h
      · rw [List.mem_singleton.mp h]
        exact curInv_good label ws maxLen line len hinv
    · exact hacc l hl
  | cons w rest ih =>
    intro line len acc hsub hinv hacc l hl
    unfold wrapLoop at hl
    split at hl
    case isTrue hguard =>
      refine ih (w ++ " ") (w.length + 1) (acc ++ [line]) ?_ ?_ ?_ l hl
      · intro x hx
        exact hsub x (List.mem_cons_of_mem _ hx)
      · refine Or.inr ⟨?_, ?_⟩
        · rw [String.length_append]
          rfl
        · by_cases hle : w.length ≤ maxLen
          · exact Or.inl (by omega)
          · exact Or.inr ⟨w, hsub w (List.mem_cons_self _ _), rfl, by omega⟩
      · intro x hx
        rcases List.mem_append.mp hx with h | h
        · exact hacc x h
        · rw [List.mem_singleton.mp h]
          exact curInv_good label ws maxLen line len hinv
    case isFalse hguard =>
      have hfit : len + w.length ≤ maxLen := by omega
      refine ih (line ++ w ++ " ") (len + w.length + 1) acc ?_ ?_ hacc l hl
      · intro x hx
        exact hsub x (List.mem_cons_of_mem _ hx)
      · rcases hinv with ⟨r, hline, hlen, _⟩ | ⟨hl2, hor⟩
        · refine Or.inl ⟨r ++ w ++ " ", ?_, ?_, Or.inr (by omega)⟩
          · rw [hline, String.append_assoc, String.append_assoc,
              String.append_assoc]
          · have h1 : (" " : String).length = 1 := rfl
            simp only [String.length_append, h1]
            omega
        · refine Or.inr ⟨?_, Or.inl (by omega)⟩
          have h1 : (" " : String).length = 1 := rfl
          rcases hor with h | ⟨w0, _, hw0, hbig⟩
          · rw [String.length_append, String.length_append, hl2, h1]
          · exfalso
            have : line.length = w0.length + 1 := by
              rw [hw0, String.length_append, h1]
            omega

/-- C1: the claim states every wrapped line fits in the given width unless a
single word alone exceeds it.  False: the lines carry color markup and a
trailing space, so even with no over-long word a returned line exceeds the
width — here a 25-character line for width 10 while every word has length at
most 10. -/
theorem wrapFooterText_width_claim_false :
    wrapFooterText "AB" "worddd" 10 = ["[green]AB:[white] worddd "]
    ∧ ("[green]AB:[white] worddd " : String).length = 25
    ∧ ¬ (("[green]AB:[white] worddd " : String).length ≤ 10)
    ∧ (splitOnSpace "worddd").all (fun w => w.length ≤ 10) = true := by
  refine ⟨by decide, by decide, by decide, by decide⟩

/-- C1 (amended): every line produced by wrapFooterText either fits in
`width + 1` characters (each word carries a trailing space), or is a single
whitespace-delimited word of the input that alone exceeds the width, emitted
verbatim and unbroken with its trailing space on its own line, or is the
color-markup label line whose display content `label: ...` fits in
`width + 1` characters (degenerating to the bare decorated label when not
even the first word fits after it). -/
theorem wrapFooterText_line_length (label text : String) (maxLineLength : Nat)
    (line : String) (hline : line ∈ wrapFooterText label text maxLineLength) :
    line.length ≤ maxLineLength + 1
    ∨ (∃ w, w ∈ splitOnSpace text ∧ line = w ++ " " ∧ maxLineLength < w.length)
    ∨ (∃ r, line = labelMarkup label ++ r ∧
        (r = "" ∨ label.length + 2 + r.length ≤ maxLineLength + 1)) := by
  have hmem : line ∈ wrapLoop maxLineLength (splitOnSpace text)
      (labelMarkup label) (label.length + 2) [] :=
    List.mem_reverse.mp hline
  have hinit : CurInv label (splitOnSpace text) maxLineLength
      (labelMarkup label) (label.length + 2) := by
    refine Or.inl ⟨"", (String.append_empty _).symm, ?_, Or.inl rfl⟩
    rfl
  exact wrapLoop_good label (splitOnSpace text) maxLineLength
    (splitOnSpace text) (labelMarkup label) (label.length + 2) []
    (fun _ hw => hw) hinit (fun l hl => absurd hl (List.not_mem_nil l))
    line hmem

/-- Witness for C1 (amended) at label "A", text "bb cc", width 5: the line
"cc " is among the output and satisfies the guarantee. -/
theorem wrapFooterText_line_length_witness :
    ("cc " ∈ wrapFooterText "A" "bb cc" 5)
    ∧ (("cc " : String).length ≤ 5 + 1
      ∨ (∃ w, w ∈ splitOnSpace "bb cc" ∧ "cc " = w ++ " " ∧ 5 < w.length)
      ∨ (∃ r, "cc " = labelMarkup "A" ++ r ∧
          (r = "" ∨ "A".length + 2 + r.length ≤ 5 + 1))) :=
  ⟨by decide, wrapFooterText_line_length "A" "bb cc" 5 "cc " (by decide)⟩

/-- C2: the claim states the product+version header line is re-added
left-aligned.  False: the source passes tview.AlignCenter for that line —
at a concrete redraw the header entries are the center-aligned version line
and the right-aligned timestamp, and center is not left. -/
theorem redraw_header_left_claim_false :
    (redrawScreen (some ⟨[], false⟩) true (.ok "v1") (.ok []) (.ok [])
        ⟨2025, 1, 2, 3, 4⟩ 80).map (fun fr => fr.texts.filter (·.header))
      = some [⟨"Incus OS v1", true, Align.center⟩,
              ⟨"2025-01-02 03:04 UTC", true, Align.right⟩]
    ∧ Align.center ≠ Align.left := by
  exact ⟨by decide, by decide⟩

/-- C2 (amended): on every redraw with the frame constructed, the
header/footer text is cleared and rebuilt from scratch (the new texts do not
depend on the previous frame contents); the product+version header line is
re-added center-aligned and the current UTC timestamp, formatted as
YYYY-MM-DD HH:MM UTC, is re-added right-aligned, as the two header
entries. -/
theorem redraw_header_texts (f : Frame) (tv : Bool)
    (vr : Except String String) (sr : Except String (List (String × String)))
    (ar : Except String (List String)) (now : Timestamp) (w : Nat) :
    redrawScreen (some f) tv vr sr ar now w
      = some ⟨frameTexts vr sr ar now w, if tv then true else f.hasBody⟩
    ∧ (frameTexts vr sr ar now w).take 2
      = [⟨"Incus OS " ++ versionString vr, true, Align.center⟩,
         ⟨formatTimestamp now, true, Align.right⟩] := by
  exact ⟨rfl, rfl⟩

/-- C3: a chunk containing both the warning marker and the error marker is
wrapped in the warning (orange) color directive when forwarded to the body,
not the error one, because the warning check runs first. -/
theorem write_warn_precedence (st : TuiSinks) (mirrorErr : Option String)
    (p : String) (hw : strContains p "level=WARN" = true)
    (_he : strContains p "level=ERROR" = true) :
    colorize p = "[orange]" ++ p ++ "[white]"
    ∧ (tuiWrite st none mirrorErr p).sinks.body
      = st.body ++ ["[orange]" ++ p ++ "[white]"] := by
  have hc : colorize p = "[orange]" ++ p ++ "[white]" := by
    unfold colorize
    rw [hw]
    simp
  refine ⟨hc, ?_⟩
  cases mirrorErr <;> simp [tuiWrite, hc]

/-- Witness for C3 at a chunk containing both markers. -/
theorem write_warn_precedence_witness :
    (strContains "x level=WARN level=ERROR y" "level=WARN" = true)
    ∧ (strContains "x level=WARN level=ERROR y" "level=ERROR" = true)
    ∧ colorize "x level=WARN level=ERROR y"
        = "[orange]" ++ "x level=WARN level=ERROR y" ++ "[white]"
    ∧ (tuiWrite ⟨[], []⟩ none none "x level=WARN level=ERROR y").sinks.body
      = [] ++ ["[orange]" ++ "x level=WARN level=ERROR y" ++ "[white]"] :=
  ⟨by decide, by decide,
    (write_warn_precedence ⟨[], []⟩ none "x level=WARN level=ERROR y"
      (by decide) (by decide)).1,
    (write_warn_precedence ⟨[], []⟩ none "x level=WARN level=ERROR y"
      (by decide) (by decide)).2⟩

/-- C4: Write forwards the (possibly colorized) chunk to the body and then
the original, unmodified chunk to the mirror stream; on success it reports
the original chunk's length with no error; when the mirror write fails its
error is returned while the body write is kept and the mirror is
unchanged. -/
theorem write_mirror_and_error (st : TuiSinks) (p e : String) :
    tuiWrite st none none p
      = ⟨⟨st.body ++ [colorize p], st.mirror ++ [p]⟩, p.length, none⟩
    ∧ (tuiWrite st none (some e) p).err = some e
    ∧ (tuiWrite st none (some e) p).sinks.body = st.body ++ [colorize p]
    ∧ (tuiWrite st none (some e) p).sinks.mirror = st.mirror := by
  exact ⟨rfl, rfl, rfl, rfl⟩

/-- C5: two independent soft-failure cases, each with the other collaborator
held completely general.  First conjunct: whenever the OS-release query
fails (any state-load result `sr`), the header line carries the bracketed
error text in place of the version.  Second conjunct: whenever the state
load fails (any version result `vr`), the installed-application list is
rendered empty, so its footer line wraps the empty string.  In both cases
the redraw completes and returns a frame — it has no error channel to
propagate on. -/
theorem redraw_soft_failures (f : Frame) (tv : Bool)
    (vr : Except String String)
    (sr : Except String (List (String × String)))
    (ar : Except String (List String)) (now : Timestamp) (w : Nat)
    (e e2 : String) :
    (redrawScreen (some f) tv (.error e) sr ar now w
      = some ⟨[⟨"Incus OS " ++ ("[" ++ e ++ "]"), true, Align.center⟩,
               ⟨formatTimestamp now, true, Align.right⟩] ++
              (wrapFooterText "IP Address(es)"
                  (String.intercalate ", " (getIPAddresses ar)) w).map
                (fun l => ⟨l, false, Align.left⟩) ++
              (wrapFooterText "Installed application(s)"
                  (String.intercalate ", " (sortStrings (appEntries sr)))
                  w).map
                (fun l => ⟨l, false, Align.left⟩),
              if tv then true else f.hasBody⟩)
    ∧ (redrawScreen (some f) tv vr (.error e2) ar now w
      = some ⟨[⟨"Incus OS " ++ versionString vr, true, Align.center⟩,
               ⟨formatTimestamp now, true, Align.right⟩] ++
              (wrapFooterText "IP Address(es)"
                  (String.intercalate ", " (getIPAddresses ar)) w).map
                (fun l => ⟨l, false, Align.left⟩) ++
              (wrapFooterText "Installed application(s)" "" w).map
                (fun l => ⟨l, false, Align.left⟩),
              if tv then true else f.hasBody⟩) := by
  exact ⟨rfl, rfl⟩

/-- C6: redraw is idempotent — a second invocation with the same backing
data (version, state, addresses, clock, width, text view) leaves the frame
exactly as one invocation does — and only a missing frame short-circuits:
with no frame the call is a no-op, with a frame it always produces one. -/
theorem redraw_idempotent (frame? : Option Frame) (tv : Bool)
    (vr : Except String String) (sr : Except String (List (String × String)))
    (ar : Except String (List String)) (now : Timestamp) (w : Nat) :
    redrawScreen (redrawScreen frame? tv vr sr ar now w) tv vr sr ar now w
      = redrawScreen frame? tv vr sr ar now w
    ∧ redrawScreen none tv vr sr ar now w = none
    ∧ ∀ f : Frame, ∃ fr : Frame,
        redrawScreen (some f) tv vr sr ar now w = some fr := by
  refine ⟨?_, rfl, fun f => ⟨_, rfl⟩⟩
  cases frame? with
  | none => rfl
  | some f => cases tv <;> simp [redrawScreen]

/-- The accumulation loop of getIPAddresses is List.filter of the negated
skip condition, so kept entries stay in enumeration order. -/
theorem filterAddrs_eq_filter (addrs : List String) :
    filterAddrs addrs = addrs.filter (fun a => !skipAddr a) := by
  induction addrs with
  | nil => rfl
  | cons a rest ih =>
      unfold filterAddrs
      rw [List.filter_cons]
      cases h : skipAddr a <;> simp [h, ih]

/-- C7: the address filter excludes exactly the entries that are empty, the
IPv4 loopback literal, the IPv6 loopback literal, or carry the fe80:
link-local prefix, keeping all others in enumeration order; the spec's
example candidates yield exactly 10.0.0.5/24. -/
theorem getIPAddresses_filter (addrs : List String) :
    getIPAddresses (.ok addrs) = addrs.filter (fun a => !skipAddr a)
    ∧ (∀ a : String, skipAddr a = true ↔
        (a = "" ∨ a = "127.0.0.1/8" ∨ a = "::1/128"
          ∨ strHasStart a "fe80:" = true))
    ∧ getIPAddresses
        (.ok ["127.0.0.1/8", "::1/128", "fe80::1/64", "10.0.0.5/24"])
      = ["10.0.0.5/24"] := by
  refine ⟨filterAddrs_eq_filter addrs, ?_, by decide⟩
  intro a
  simp [skipAddr, or_assoc]

/-- C8: the redraw loop writes the 2-byte ESC-c clear sequence to the
primary console exactly once every 12 ticks (on ticks with i % 12 = 1),
before that tick's redraw; a failed write is discarded, never retried, and
the redraw still runs on every tick. -/
theorem run_clear_cadence (i : Nat) (ok : Bool) :
    tickEvents (i + 12) ok = tickEvents i ok
    ∧ ((List.range 12).filter
        (fun k => tickHasClear (tickEvents k ok))).length = 1
    ∧ (i % 12 = 1 → tickEvents i ok
        = [TickEvent.clearWrite "/dev/console" [0x1B, 0x63] ok,
           TickEvent.redraw])
    ∧ (i % 12 ≠ 1 → tickEvents i ok = [TickEvent.redraw])
    ∧ TickEvent.redraw ∈ tickEvents i ok
    ∧ ([0x1B, 0x63] : List Nat).length = 2 := by
  refine ⟨?_, ?_, ?_, ?_, ?_, rfl⟩
  · unfold tickEvents
    rw [Nat.add_mod_right]
  · cases ok <;> decide
  · intro h
    simp [tickEvents, h]
  · intro h
    simp [tickEvents, h]
  · unfold tickEvents
    split <;> simp

/-- Witness for C8 at ticks 13 and 14 with a failing clear write. -/
theorem run_clear_cadence_witness :
    (13 % 12 = 1)
    ∧ tickEvents 13 false
      = [TickEvent.clearWrite "/dev/console" [0x1B, 0x63] false,
         TickEvent.redraw]
    ∧ (14 % 12 ≠ 1)
    ∧ tickEvents 14 false = [TickEvent.redraw] :=
  ⟨by decide, (run_clear_cadence 13 false).2.2.1 (by decide), by decide,
    (run_clear_cadence 14 false).2.2.2.1 (by decide)⟩

/-- C9: a failed first construction still stores the freshly allocated,
partially initialized instance in the singleton variable while the call
returns a nil instance with the error; every subsequent call then returns
that partial instance with a nil error, never retrying construction. -/
theorem getTUI_singleton_poisoning (e : String) :
    GetTUI none (BuildOutcome.muxFail e)
      = ⟨some emptyTuiObj, none, some e⟩
    ∧ GetTUI none (BuildOutcome.screenFail e)
      = ⟨some emptyTuiObj, none, some e⟩
    ∧ (∀ (t : TuiObj) (o : BuildOutcome),
        GetTUI (some t) o = ⟨some t, some t, none⟩)
    ∧ emptyTuiObj.appSet = false
    ∧ emptyTuiObj.screenSet = false := by
  exact ⟨rfl, rfl, fun t o => rfl, rfl, rfl⟩

/-- C10: when interface enumeration fails, getIPAddresses swallows the error
and returns the one-element list holding the error text; the redraw then
feeds that text to the IP-address footer line as if it were an address. -/
theorem getIPAddresses_error_text (e : String) (f : Frame) (tv : Bool)
    (ver : String) (apps : List (String × String)) (now : Timestamp)
    (w : Nat) :
    getIPAddresses (.error e) = [e]
    ∧ (getIPAddresses (.error e)).length = 1
    ∧ String.intercalate ", " (getIPAddresses (.error e)) = e
    ∧ redrawScreen (some f) tv (.ok ver) (.ok apps) (.error e) now w
      = some ⟨[⟨"Incus OS " ++ ver, true, Align.center⟩,
               ⟨formatTimestamp now, true, Align.right⟩] ++
              (wrapFooterText "IP Address(es)" e w).map
                (fun l => ⟨l, false, Align.left⟩) ++
              (wrapFooterText "Installed application(s)"
                  (String.intercalate ", "
                    (sortStrings (apps.map fun p =>
                      p.1 ++ "(" ++ p.2 ++ ")"))) w).map
                (fun l => ⟨l, false, Align.left⟩),
              if tv then true else f.hasBody⟩ := by
  exact ⟨rfl, rfl, rfl, rfl⟩
